import Mathlib

/-!
# Verification of the vulndb storage-and-query core

Shallow embedding of `vulndb/lib/__init__.py` (normalized data model:
Severity, CPE decomposition, VulnerabilityDetail, PackageIssue,
VulnerabilityLocation, VulnerabilityOccurrence) together with
spec-modelled definitions of the document store and query engine
(`vulndb/lib/db.py` and the version matcher of `vulndb/lib/utils.py`
are not part of the sources at hand; those definitions carry a
`Modelled from the spec:` doc comment and follow the spec text).

Python `None` is modelled as `Option.none`; Python falsiness of a
string value (`None` or `""`) is the `truthy` predicate below; Python
exceptions (`TypeError`, `AttributeError`, `KeyError`) are modelled as
`Except.error` with the exception's name.
-/

namespace VulnDB

/-- Python truthiness of an optional string: `None` and `""` are falsy. -/
def truthy : Option String → Bool
  | none => false
  | some s => s ≠ ""

/-- Python's `str.split(sep)` for a one-character separator, on the
character list of the string: splitting keeps empty fields, and the
empty string splits to one empty field. -/
def splitOnChar (c : Char) : List Char → List (List Char)
  | [] => [[]]
  | x :: xs =>
    match splitOnChar c xs with
    | [] => if x = c then [[], []] else [[x]]
    | y :: ys => if x = c then [] :: y :: ys else (x :: y) :: ys

/-- Python's `str.upper()` (the inputs at hand are ASCII). -/
def pyUpper (s : String) : String := ⟨s.data.map Char.toUpper⟩

/-! ## CPE Decomposer

The source keeps one precompiled pattern (`__init__.py`, lines 15-17):

  `cpe:?:[^:]+:[^:]+:(?P<vendor>[^:]+):(?P<package>[^:]+):(?P<version>[^:]+)`

`re.match` anchors at the start of the string and allows trailing
input. The pattern is equivalent to: the literal `cpe`, one colon or
two colons (the optional `:?` is tried greedily before the mandatory
colon), then five runs of one-or-more non-colon characters separated
by colons; the named groups are runs three, four and five. -/

/-- The (vendor, package, version) triple captured by `CPE_REGEX`. -/
structure CPEParts where
  vendor : String
  package : String
  version : String
  deriving DecidableEq

/-- `CPE_REGEX.match(s)`: `some` of the named groups on a match,
`none` when the string does not fit the pattern. The greedy `:?` takes
a double colon after `cpe` when one is there; each `[^:]+` group is a
non-empty colon-free field, and trailing input after the fifth field
is allowed (`re.match` is a prefix match). -/
def cpe_match (s : String) : Option CPEParts :=
  let rest? : Option (List Char) :=
    match s.data with
    | 'c' :: 'p' :: 'e' :: ':' :: ':' :: rest => some rest
    | 'c' :: 'p' :: 'e' :: ':' :: rest => some rest
    | _ => none
  match rest? with
  | none => none
  | some rest =>
    match splitOnChar ':' rest with
    | p1 :: p2 :: vendor :: pkg :: version :: _ =>
      if p1 ≠ [] && p2 ≠ [] && vendor ≠ [] && pkg ≠ [] && version ≠ [] then
        some ⟨⟨vendor⟩, ⟨pkg⟩, ⟨version⟩⟩
      else none
    | _ => none

/-- Known application package types (`KNOWN_PKG_TYPES`). -/
def KNOWN_PKG_TYPES : List String :=
  ["composer", "maven", "npm", "nuget", "pypi", "rubygems", "golang"]

/-! ## Severity -/

/-- The closed severity enumeration (`class Severity(str, Enum)`). -/
inductive Severity where
  | UNSPECIFIED
  | LOW
  | MEDIUM
  | HIGH
  | CRITICAL
  deriving DecidableEq

/-- The member name of a `Severity`, as in `Severity.__members__`. -/
def Severity.name : Severity → String
  | .UNSPECIFIED => "UNSPECIFIED"
  | .LOW => "LOW"
  | .MEDIUM => "MEDIUM"
  | .HIGH => "HIGH"
  | .CRITICAL => "CRITICAL"

/-- The string value backing each member; the enumeration assigns each
member its own name as value. -/
def Severity.value : Severity → String
  | .UNSPECIFIED => "UNSPECIFIED"
  | .LOW => "LOW"
  | .MEDIUM => "MEDIUM"
  | .HIGH => "HIGH"
  | .CRITICAL => "CRITICAL"

/-- `Severity.__members__.items()` in declaration order. -/
def Severity.members : List (String × Severity) :=
  [("UNSPECIFIED", .UNSPECIFIED), ("LOW", .LOW), ("MEDIUM", .MEDIUM),
   ("HIGH", .HIGH), ("CRITICAL", .CRITICAL)]

/-- `Severity.__str__`: returns `self.value`. -/
def Severity.str_repr (s : Severity) : String := s.value

/-- The argument shapes `Severity.from_str` is exercised with: `None`,
a string, or a mapping (whose values may themselves be `None`). -/
inductive SevInput where
  | none
  | str (s : String)
  | dict (entries : List (String × Option String))
  deriving DecidableEq

/-- The string-or-`None` tail of `from_str`, after the dict unwrap:
falsy input yields `UNSPECIFIED`, then the member loop compares each
member name with `sevstr.upper()`, and a miss yields `UNSPECIFIED`. -/
def Severity.from_str_core (sevstr : Option String) : Severity :=
  if ¬ truthy sevstr then .UNSPECIFIED
  else
    let s := pyUpper (sevstr.getD "")
    match Severity.members.find? (fun kv => kv.1 == s) with
    | some kv => kv.2
    | none => .UNSPECIFIED

/-- `Severity.from_str(sevstr)` (lines 54-63): a dict argument is
first replaced by its `"value"` entry (`KeyError` when absent), then
parsing proceeds on the string-or-`None` value. -/
def Severity.from_str : SevInput → Except String Severity
  | .none => .ok (Severity.from_str_core none)
  | .str s => .ok (Severity.from_str_core (some s))
  | .dict entries =>
    match entries.lookup "value" with
    | some v => .ok (Severity.from_str_core v)
    | none => .error "KeyError"

/-! ## VulnerabilityLocation -/

/-- `VulnerabilityLocation` dataclass: (cpe_uri, package, version). -/
structure VulnerabilityLocation where
  cpe_uri : String
  package : String
  version : String
  deriving DecidableEq

/-- `VulnerabilityLocation.from_dict(cpe_uri, fixed_location)`
(lines 238-246): a falsy location short-circuits to `None`; otherwise
the URI is decomposed (`re.match` on a `None` URI raises `TypeError`),
a non-matching URI yields `None`, and a match builds the location from
the supplied value and groups 2 (package) and 3 (version). -/
def VulnerabilityLocation.from_dict (cpe_uri : Option String)
    (fixed_location : Option String) :
    Except String (Option VulnerabilityLocation) :=
  if ¬ truthy fixed_location then .ok none
  else
    match cpe_uri with
    | none => .error "TypeError"
    | some uri =>
      match cpe_match uri with
      | some parts =>
        .ok (some ⟨fixed_location.getD "", parts.package, parts.version⟩)
      | none => .ok none

/-! ## PackageIssue -/

/-- `PackageIssue`: a pair of optional locations. -/
structure PackageIssue where
  affected_location : Option VulnerabilityLocation
  fixed_location : Option VulnerabilityLocation
  deriving DecidableEq

/-- `PackageIssue.__init__(affected_location, fixed_location)`
(lines 193-197): each field is built by
`VulnerabilityLocation.from_dict(location, None)` — the location value
is passed in URI position and the location argument is `None`. -/
def PackageIssue.init (affected_location fixed_location : Option String) :
    Except String PackageIssue := do
  let a ← VulnerabilityLocation.from_dict affected_location none
  let f ← VulnerabilityLocation.from_dict fixed_location none
  .ok ⟨a, f⟩

/-- `PackageIssue.from_dict(package_issue)` (lines 199-203): delegates
to the constructor on the mapping's two location entries. -/
def PackageIssue.from_dict (package_issue : List (String × Option String)) :
    Except String PackageIssue :=
  PackageIssue.init ((package_issue.lookup "affected_location").getD none)
    ((package_issue.lookup "fixed_location").getD none)

/-! ## VulnerabilityDetail -/

/-- The stored fields of a `VulnerabilityDetail`. `source_update_time`
is carried as the raw input string (`convert_time` only reshapes it
for display and no property here depends on it). -/
structure VulnerabilityDetail where
  cpe_uri : Option String
  package : Option String
  min_affected_version : Option String
  max_affected_version : Option String
  severity : Severity
  description : Option String
  fixed_location : Option VulnerabilityLocation
  package_type : Option String
  is_obsolete : Option Bool
  source_update_time : Option String
  deriving DecidableEq

/-- `VulnerabilityDetail.get_type(cpe_uri, package_type)`
(lines 158-171): a supplied type in the known set is kept; otherwise
the URI is decomposed and the vendor group is returned whether or not
it is known (the unknown-type branch passes it through); a URI that
does not decompose yields `None`. -/
def VulnerabilityDetail.get_type (cpe_uri : String)
    (package_type : Option String) : Option String :=
  if (match package_type with
      | some t => KNOWN_PKG_TYPES.contains t
      | none => false) then
    package_type
  else
    match cpe_match cpe_uri with
    | some parts =>
      if KNOWN_PKG_TYPES.contains parts.vendor then some parts.vendor
      else some parts.vendor
    | none => none

/-- `VulnerabilityDetail.__init__` (lines 129-156). The first
statement runs `CPE_REGEX.match(cpe_uri)` (`TypeError` on a `None`
URI). Each of package / min bound / max bound keeps a truthy supplied
value and otherwise dereferences the match object's group — an
`AttributeError` when the URI did not match. Severity parsing,
fixed-location construction and type normalization follow. -/
def VulnerabilityDetail.init (cpe_uri package min_affected_version
    max_affected_version : Option String) (severity : SevInput)
    (description : Option String) (fixed_location : Option String)
    (package_type : Option String) (is_obsolete : Option Bool)
    (source_update_time : Option String) :
    Except String VulnerabilityDetail :=
  match cpe_uri with
  | none => .error "TypeError"
  | some uri =>
    let parts := cpe_match uri
    let derive : Option String → (CPEParts → String) →
        Except String (Option String) := fun supplied f =>
      if truthy supplied then .ok supplied
      else
        match parts with
        | some p => .ok (some (f p))
        | none => .error "AttributeError"
    do
      let package' ← derive package (fun p => p.package)
      let minV ← derive min_affected_version (fun p => p.version)
      let maxV ← derive max_affected_version (fun p => p.version)
      let sev ← Severity.from_str severity
      let fixed ← VulnerabilityLocation.from_dict (some uri) fixed_location
      .ok { cpe_uri := some uri
            package := package'
            min_affected_version := minV
            max_affected_version := maxV
            severity := sev
            description := description
            fixed_location := fixed
            package_type := VulnerabilityDetail.get_type uri package_type
            is_obsolete := is_obsolete
            source_update_time := source_update_time }

/-! ## Version Matcher

`vulndb/lib/utils.py` is not among the sources at hand; the matcher is
modelled from the spec, §4.2. -/

/-- The numeric value of one dotted component: its decimal reading
when it is all digits, `0` for a non-numeric component. -/
def componentToNat (cs : List Char) : Nat :=
  if cs ≠ [] && cs.all Char.isDigit then
    cs.foldl (fun n c => n * 10 + (c.toNat - 48)) 0
  else 0

/-- Numeric components of a dotted version string. -/
def versionComponents (s : String) : List Nat :=
  (splitOnChar '.' s.data).map componentToNat

/-- Lexicographic comparison of two lists over a linear order; a
strict proper prefix is smaller. -/
def cmpLex {α : Type} [LinearOrder α] : List α → List α → Ordering
  | [], [] => .eq
  | [], _ :: _ => .lt
  | _ :: _, [] => .gt
  | a :: as, b :: bs =>
    if a < b then .lt else if b < a then .gt else cmpLex as bs

/-- Modelled from the spec: the ecosystem version ordering of §4.2 —
numeric dotted-component comparison, with the spec's
lexicographic-string fallback deciding numeric ties, so distinct
strings never compare equal (the exact-match edge case of §4.2). -/
def cmpVersion (a b : String) : Ordering :=
  match cmpLex (versionComponents a) (versionComponents b) with
  | .eq => cmpLex a.data b.data
  | o => o

/-- `a ≤ b` under the version ordering. -/
def versionLe (a b : String) : Bool := cmpVersion a b ≠ .gt

/-- Modelled from the spec: `matches(queried_version,
min_affected_version, max_affected_version)` of the Version Matcher
(§4.2, `vulndb/lib/utils.py` not in the sources) — inclusive range
membership, an absent min is no lower bound and an absent max no upper
bound. -/
def version_matches (queried : String) (minV maxV : Option String) : Bool :=
  (match minV with
   | none => true
   | some m => versionLe m queried) &&
  (match maxV with
   | none => true
   | some M => versionLe queried M)

/-! ## Document store and query engine

`vulndb/lib/db.py` is not among the sources at hand; the store layout
and the five query operations are modelled from the spec, §4.3-§4.5,
and from the calls in `test/test_db.py`. -/

/-- Modelled from the spec: one persisted detail document of the
Document Store — the advisory envelope's id plus the package-scoped
detail fields the query engine reads (§4.3, §4.5). -/
structure DetailDoc where
  vid : String
  package : String
  min_affected_version : Option String
  max_affected_version : Option String
  cpe_uri : String
  severity : Severity
  deriving DecidableEq

/-- `VulnerabilityOccurrence` (`__init__.py`, lines 249-263). -/
structure VulnerabilityOccurrence where
  id : String
  problem_type : String
  type : Option String
  severity : Severity
  cvss_score : String
  package_issue : PackageIssue
  short_description : String
  long_description : String
  related_urls : List String
  effective_severity : Severity
  deriving DecidableEq

/-- Modelled from the spec: the query-time synthesis of a
display-ready occurrence from a matched detail document (§3, §4.5);
its package issue is built by `PackageIssue.__init__`, whose location
fields are always absent (see `PackageIssue.init`). -/
def to_occurrence (d : DetailDoc) : VulnerabilityOccurrence :=
  { id := d.vid
    problem_type := ""
    type := VulnerabilityDetail.get_type d.cpe_uri none
    severity := d.severity
    cvss_score := ""
    package_issue := ⟨none, none⟩
    short_description := ""
    long_description := ""
    related_urls := []
    effective_severity := d.severity }

/-- The scan predicate of `pkg_search`: the document's package equals
the queried package and the queried version is in the stored range. -/
def detail_matches (pkg version : String) (d : DetailDoc) : Bool :=
  d.package == pkg &&
    version_matches version d.min_affected_version d.max_affected_version

/-- Modelled from the spec: `pkg_search(package, version)` (§4.5) —
scans the store, keeps details whose package equals the query and
whose range contains the version, and synthesizes one occurrence per
match. -/
def pkg_search (store : List DetailDoc) (pkg version : String) :
    List VulnerabilityOccurrence :=
  (store.filter (detail_matches pkg version)).map to_occurrence

/-- Does the candidate's CPE decompose to the queried vendor? A
non-decomposable CPE is excluded (spec §4.5, §7). -/
def cpe_vendor_is (vendor : String) (d : DetailDoc) : Bool :=
  match cpe_match d.cpe_uri with
  | some parts => parts.vendor == vendor
  | none => false

/-- Modelled from the spec: `vendor_pkg_search(vendor, package,
version)` (§4.5) — the `pkg_search` scan additionally constrained by
the vendor extracted from each candidate's cpe_uri. -/
def vendor_pkg_search (store : List DetailDoc) (vendor pkg version : String) :
    List VulnerabilityOccurrence :=
  (store.filter (fun d => detail_matches pkg version d && cpe_vendor_is vendor d)).map
    to_occurrence

/-- One insertion step of Secondary Index construction: append the
document to its package's bucket, creating the bucket on first use. -/
def index_insert (idx : List (String × List DetailDoc)) (d : DetailDoc) :
    List (String × List DetailDoc) :=
  match idx with
  | [] => [(d.package, [d])]
  | (k, ds) :: rest =>
    if k = d.package then (k, ds ++ [d]) :: rest
    else (k, ds) :: index_insert rest d

/-- Modelled from the spec: `build(documents)` of the Secondary Index
(§4.4) — one pass over the store, grouping document references by
exact package name. -/
def index_build (store : List DetailDoc) : List (String × List DetailDoc) :=
  store.foldl index_insert []

/-- A package's candidate set in the index; a package with no bucket
has the empty candidate set. -/
def index_lookup (idx : List (String × List DetailDoc)) (name : String) :
    List DetailDoc :=
  match idx.lookup name with
  | some ds => ds
  | none => []

/-- Modelled from the spec: `index_search(name, version)` (§4.5) —
looks up the package's candidate set in the index built from the store
and applies the Version Matcher to each candidate's range. -/
def index_search (store : List DetailDoc) (name version : String) :
    List VulnerabilityOccurrence :=
  ((index_lookup (index_build store) name).filter
    (fun d => version_matches version d.min_affected_version
      d.max_affected_version)).map to_occurrence

/-- Modelled from the spec: `bulk_index_search(sequence of {name,
version})` (§4.4, §4.5) — the union over the input pairs of the
indexed lookups, each result tagged with its `name|version` key. -/
def bulk_index_search (store : List DetailDoc)
    (queries : List (String × String)) :
    List (String × VulnerabilityOccurrence) :=
  queries.flatMap (fun q =>
    (index_search store q.1 q.2).map (fun o => (q.1 ++ "|" ++ q.2, o)))

/-- Modelled from the spec: one normalized input record handed to
`store` — the advisory envelope with its one-or-more package-scoped
details (§3, §4.3). -/
structure NormalizedVuln where
  vid : String
  details : List DetailDoc
  deriving DecidableEq

/-- Modelled from the spec: the documents one input record fans out to
— one document per (Vulnerability × VulnerabilityDetail) pair plus one
summary document per Vulnerability, each id derived from the advisory
id and the detail's package coordinate (§4.3). -/
def fan_out (r : NormalizedVuln) : List String :=
  r.details.map (fun d => r.vid ++ "|" ++ d.package) ++ [r.vid]

/-- Modelled from the spec: `store(records) -> stored_document_ids`
(§4.3) — fans out every input record and returns all stored ids. -/
def db_store (batch : List NormalizedVuln) : List String :=
  batch.flatMap fan_out

/-- The stored detail of the spec's concrete lodash scenario (§8): one
advisory whose one detail has cpe_uri
`cpe:2.3:a:lodash:lodash:4.17.15`, package `lodash`, min `0.0.0`,
max `4.17.15`. -/
def lodash_doc : DetailDoc :=
  { vid := "CVE-2019-10744"
    package := "lodash"
    min_affected_version := some "0.0.0"
    max_affected_version := some "4.17.15"
    cpe_uri := "cpe:2.3:a:lodash:lodash:4.17.15"
    severity := .HIGH }

/-- The store contents after storing the lodash scenario's detail. -/
def lodash_store : List DetailDoc := [lodash_doc]

/-! ## Properties of the version ordering -/

theorem cmpLex_swap {α : Type} [LinearOrder α] :
    ∀ as bs : List α, cmpLex bs as = (cmpLex as bs).swap := by
  intro as
  induction as with
  | nil => intro bs; cases bs <;> rfl
  | cons a as ih =>
    intro bs
    cases bs with
    | nil => rfl
    | cons b bs =>
      simp only [cmpLex]
      rcases lt_trichotomy a b with h | h | h
      · rw [if_neg (lt_asymm h), if_pos h, if_pos h]; rfl
      · subst h
        rw [if_neg (lt_irrefl a), if_neg (lt_irrefl a), if_neg (lt_irrefl a),
          if_neg (lt_irrefl a)]
        exact ih bs
      · rw [if_pos h, if_neg (lt_asymm h), if_pos h]; rfl

theorem cmpLex_eq_iff {α : Type} [LinearOrder α] :
    ∀ as bs : List α, cmpLex as bs = .eq ↔ as = bs := by
  intro as
  induction as with
  | nil => intro bs; cases bs <;> simp [cmpLex]
  | cons a as ih =>
    intro bs
    cases bs with
    | nil => simp [cmpLex]
    | cons b bs =>
      simp only [cmpLex]
      rcases lt_trichotomy a b with h | h | h
      · rw [if_pos h]
        simp only [List.cons.injEq]
        constructor
        · intro hc; exact absurd hc (by decide)
        · rintro ⟨rfl, -⟩; exact absurd h (lt_irrefl a)
      · subst h
        rw [if_neg (lt_irrefl a), if_neg (lt_irrefl a)]
        simp [ih bs]
      · rw [if_neg (lt_asymm h), if_pos h]
        simp only [List.cons.injEq]
        constructor
        · intro hc; exact absurd hc (by decide)
        · rintro ⟨rfl, -⟩; exact absurd h (lt_irrefl a)

theorem cmpVersion_swap (a b : String) : cmpVersion b a = (cmpVersion a b).swap := by
  unfold cmpVersion
  rw [cmpLex_swap (versionComponents a) (versionComponents b)]
  cases cmpLex (versionComponents a) (versionComponents b) with
  | lt => rfl
  | gt => rfl
  | eq => exact cmpLex_swap a.data b.data

theorem cmpVersion_eq_iff (a b : String) : cmpVersion a b = .eq ↔ a = b := by
  constructor
  · intro h
    unfold cmpVersion at h
    cases hc : cmpLex (versionComponents a) (versionComponents b) <;> rw [hc] at h
    · exact Ordering.noConfusion h
    · exact congrArg String.mk ((cmpLex_eq_iff a.data b.data).mp h)
    · exact Ordering.noConfusion h
  · rintro rfl
    unfold cmpVersion
    rw [(cmpLex_eq_iff (versionComponents a) (versionComponents a)).mpr rfl]
    exact (cmpLex_eq_iff a.data a.data).mpr rfl

theorem versionLe_refl (a : String) : versionLe a a = true := by
  simp [versionLe, (cmpVersion_eq_iff a a).mpr rfl]

theorem versionLe_antisymm {a b : String} (h1 : versionLe a b = true)
    (h2 : versionLe b a = true) : a = b := by
  simp only [versionLe, ne_eq, decide_eq_true_eq] at h1 h2
  rw [cmpVersion_swap a b] at h2
  cases hc : cmpVersion a b
  · rw [hc] at h2; exact absurd rfl h2
  · exact (cmpVersion_eq_iff a b).mp hc
  · rw [hc] at h1; exact absurd rfl h1

/-! ## Properties of the Secondary Index -/

theorem index_lookup_cons (k : String) (ds : List DetailDoc)
    (rest : List (String × List DetailDoc)) (name : String) :
    index_lookup ((k, ds) :: rest) name =
      if name = k then ds else index_lookup rest name := by
  simp only [index_lookup, List.lookup]
  rcases eq_or_ne name k with h | h
  · subst h; simp
  · simp [beq_eq_false_iff_ne.mpr h, h]

theorem index_lookup_insert (idx : List (String × List DetailDoc)) (d : DetailDoc)
    (name : String) :
    index_lookup (index_insert idx d) name =
      index_lookup idx name ++ (if d.package = name then [d] else []) := by
  induction idx with
  | nil =>
    rw [show index_insert [] d = [(d.package, [d])] from rfl, index_lookup_cons]
    rcases eq_or_ne name d.package with h | h
    · rw [if_pos h, if_pos h.symm]
      simp [index_lookup, List.lookup]
    · rw [if_neg h, if_neg (fun e => h e.symm)]
      simp [index_lookup, List.lookup]
  | cons kv rest ih =>
    obtain ⟨k, ds⟩ := kv
    simp only [index_insert]
    rcases eq_or_ne k d.package with hk | hk
    · rw [if_pos hk, index_lookup_cons, index_lookup_cons]
      rcases eq_or_ne name k with hn | hn
      · rw [if_pos hn, if_pos hn, if_pos (hk.symm.trans hn.symm)]
      · rw [if_neg hn, if_neg hn, if_neg (fun e => hn (hk.trans e).symm)]
        simp
    · rw [if_neg hk, index_lookup_cons, index_lookup_cons]
      rcases eq_or_ne name k with hn | hn
      · rw [if_pos hn, if_pos hn, if_neg (fun e => hk (e.trans hn).symm)]
        simp
      · rw [if_neg hn, if_neg hn]
        exact ih

theorem index_lookup_foldl (store : List DetailDoc) :
    ∀ (idx : List (String × List DetailDoc)) (name : String),
      index_lookup (store.foldl index_insert idx) name =
        index_lookup idx name ++ store.filter (fun d => d.package == name) := by
  induction store with
  | nil => intro idx name; simp
  | cons d rest ih =>
    intro idx name
    simp only [List.foldl_cons]
    rw [ih (index_insert idx d) name, index_lookup_insert, List.append_assoc]
    congr 1
    rcases eq_or_ne d.package name with h | h <;> simp [List.filter_cons, h]

theorem index_lookup_build (store : List DetailDoc) (name : String) :
    index_lookup (index_build store) name =
      store.filter (fun d => d.package == name) := by
  have h := index_lookup_foldl store [] name
  simpa [index_build, index_lookup, List.lookup] using h

theorem index_search_eq_pkg_search (store : List DetailDoc) (name version : String) :
    index_search store name version = pkg_search store name version := by
  unfold index_search pkg_search
  rw [index_lookup_build, List.filter_filter]
  congr 1
  refine List.filter_congr (fun d _ => ?_)
  simp [detail_matches, Bool.and_comm]

/-! ## The claims -/

/-- **C1**: for every store and every (name, version) pair, the
index-backed `index_search` returns the same occurrence sequence as
the store-scanning `pkg_search` (so in particular set-equal results
for every pair present in the store), and `bulk_index_search` returns
exactly the concatenation of the individual `pkg_search` results over
its input pairs. -/
theorem C1_indexed_queries_equal_pkg_search (store : List DetailDoc)
    (name version : String) (queries : List (String × String)) :
    index_search store name version = pkg_search store name version
    ∧ (bulk_index_search store queries).map Prod.snd =
        queries.flatMap (fun q => pkg_search store q.1 q.2) := by
  refine ⟨index_search_eq_pkg_search store name version, ?_⟩
  unfold bulk_index_search
  rw [List.map_flatMap]
  congr 1
  funext q
  rw [List.map_map]
  simp [Function.comp_def, index_search_eq_pkg_search store q.1 q.2]

/-- **C2**: the Version Matcher's `matches` is true exactly when
`min ≤ queried ≤ max` under the version ordering, with an absent min
as no lower bound and an absent max as no upper bound; when min and
max coincide only that single version matches; and on the lodash
scenario's store, `pkg_search("lodash", "4.17.15")` returns exactly
one occurrence while `pkg_search("lodash", "4.17.16")` is empty. -/
theorem C2_version_matcher_semantics (q v : String) (minV maxV : Option String) :
    (version_matches q minV maxV = true ↔
      ((∀ m ∈ minV, versionLe m q = true) ∧ (∀ M ∈ maxV, versionLe q M = true)))
    ∧ (version_matches q (some v) (some v) = true ↔ q = v)
    ∧ (pkg_search lodash_store "lodash" "4.17.15").length = 1
    ∧ pkg_search lodash_store "lodash" "4.17.16" = [] := by
  refine ⟨?_, ?_, by decide, by decide⟩
  · unfold version_matches
    cases minV <;> cases maxV <;> simp
  · constructor
    · intro h
      simp only [version_matches, Bool.and_eq_true] at h
      exact versionLe_antisymm h.2 h.1
    · rintro rfl
      simp [version_matches, versionLe_refl]

theorem db_store_length_ge :
    ∀ batch : List NormalizedVuln, (∀ r ∈ batch, r.details ≠ []) →
      2 * batch.length ≤ (db_store batch).length := by
  intro batch
  induction batch with
  | nil => intro _; simp [db_store]
  | cons r rest ih =>
    intro h
    have hr : r.details ≠ [] := h r (List.mem_cons_self r rest)
    have hrest := ih (fun x hx => h x (List.mem_cons_of_mem r hx))
    have hlen : 1 ≤ r.details.length := List.length_pos.mpr hr
    simp only [db_store, List.flatMap_cons, List.length_append, fan_out,
      List.length_map, List.length_cons] at hrest ⊢
    omega

/-- **C3**: a non-empty batch of normalized records with distinct
advisory ids and one-or-more details each stores strictly more
documents than it has inputs: one document per (advisory × detail)
pair plus one summary document per advisory. -/
theorem C3_store_fan_out (batch : List NormalizedVuln) (hne : batch ≠ [])
    (hdet : ∀ r ∈ batch, r.details ≠ [])
    (hids : (batch.map NormalizedVuln.vid).Nodup) :
    batch.length < (db_store batch).length := by
  have h2 := db_store_length_ge batch hdet
  have h1 : 1 ≤ batch.length := List.length_pos.mpr hne
  omega

/-- Witness for C3 at a concrete one-record batch with one detail:
`store` yields two documents for one input. -/
theorem C3_store_fan_out_witness :
    ([⟨"CVE-2019-10744", [lodash_doc]⟩] : List NormalizedVuln).length <
      (db_store [⟨"CVE-2019-10744", [lodash_doc]⟩]).length :=
  C3_store_fan_out _ (by decide) (by decide) (by decide)

/-- **C7**: `vendor_pkg_search` returns exactly the `pkg_search`
matches filtered to candidates whose CPE decomposes to the queried
vendor; hence every returned occurrence is in `pkg_search`'s result,
and a candidate whose CPE does not decompose never passes the vendor
filter (it is excluded without failing the query). -/
theorem C7_vendor_pkg_search_filters (store : List DetailDoc)
    (vendor pkg version : String) :
    vendor_pkg_search store vendor pkg version =
      ((store.filter (detail_matches pkg version)).filter
        (cpe_vendor_is vendor)).map to_occurrence
    ∧ (∀ o ∈ vendor_pkg_search store vendor pkg version,
        o ∈ pkg_search store pkg version)
    ∧ ∀ d : DetailDoc, cpe_match d.cpe_uri = none →
        cpe_vendor_is vendor d = false := by
  refine ⟨?_, ?_, ?_⟩
  · unfold vendor_pkg_search
    rw [List.filter_filter]
    congr 1
    refine (List.filter_congr (fun d _ => ?_)).symm
    rw [Bool.and_comm]
  · intro o ho
    unfold vendor_pkg_search at ho
    rcases List.mem_map.mp ho with ⟨d, hd, rfl⟩
    have hd' := List.mem_filter.mp hd
    have hm := hd'.2
    simp only [Bool.and_eq_true] at hm
    exact List.mem_map.mpr ⟨d, List.mem_filter.mpr ⟨hd'.1, hm.1⟩, rfl⟩
  · intro d h
    simp [cpe_vendor_is, h]

/-- Witness for C7 at the lodash store: the occurrence returned by
`vendor_pkg_search` for vendor `lodash` is in `pkg_search`'s result. -/
theorem C7_vendor_pkg_search_witness :
    to_occurrence lodash_doc ∈ pkg_search lodash_store "lodash" "4.17.15" :=
  (C7_vendor_pkg_search_filters lodash_store "lodash" "lodash" "4.17.15").2.1
    (to_occurrence lodash_doc) (by decide)

/-- Witness for C2: the matcher at min == max accepts exactly that
version, and the lodash scenario behaves as specified. -/
theorem C2_version_matcher_semantics_witness :
    version_matches "4.17.15" (some "4.17.15") (some "4.17.15") = true
    ∧ (pkg_search lodash_store "lodash" "4.17.15").length = 1
    ∧ pkg_search lodash_store "lodash" "4.17.16" = [] := by
  have h := C2_version_matcher_semantics "4.17.15" "4.17.15" (some "0.0.0")
    (some "4.17.15")
  exact ⟨h.2.1.mpr rfl, h.2.2.1, h.2.2.2⟩

theorem find_members_eq_none {u : String}
    (h : ∀ m : Severity, u ≠ Severity.name m) :
    Severity.members.find? (fun kv => kv.1 == u) = none := by
  rw [List.find?_eq_none]
  intro kv hkv
  simp only [Severity.members, List.mem_cons, List.not_mem_nil, or_false] at hkv
  rcases hkv with rfl | rfl | rfl | rfl | rfl
  · exact fun e => h .UNSPECIFIED (beq_iff_eq.mp e).symm
  · exact fun e => h .LOW (beq_iff_eq.mp e).symm
  · exact fun e => h .MEDIUM (beq_iff_eq.mp e).symm
  · exact fun e => h .HIGH (beq_iff_eq.mp e).symm
  · exact fun e => h .CRITICAL (beq_iff_eq.mp e).symm

/-- **C5**: severity parsing is case-insensitive and defaulting — a
string whose upper-casing is a member name parses to that member, any
string recognized by no member and the absent input parse to
`UNSPECIFIED` instead of failing, and each member prints as its
literal name. -/
theorem C5_severity_parse (s : String) (m : Severity) :
    (pyUpper s = Severity.name m → Severity.from_str (.str s) = .ok m)
    ∧ ((∀ m' : Severity, pyUpper s ≠ Severity.name m') →
        Severity.from_str (.str s) = .ok .UNSPECIFIED)
    ∧ Severity.from_str .none = .ok .UNSPECIFIED
    ∧ Severity.str_repr m = Severity.name m := by
  refine ⟨?_, ?_, rfl, by cases m <;> rfl⟩
  · intro h
    have hs : s ≠ "" := by
      intro e
      subst e
      rw [show pyUpper "" = "" from rfl] at h
      cases m <;> exact absurd h (by decide)
    have ht : truthy (some s) = true := by simp [truthy, hs]
    simp only [Severity.from_str, Severity.from_str_core, Option.getD_some]
    rw [if_neg (fun hn => hn ht), h]
    cases m <;> rfl
  · intro h
    rcases eq_or_ne s "" with rfl | hs
    · rfl
    · have ht : truthy (some s) = true := by simp [truthy, hs]
      simp only [Severity.from_str, Severity.from_str_core, Option.getD_some]
      rw [if_neg (fun hn => hn ht), find_members_eq_none h]

/-- Witness for C5 at the spec's concrete scenario: `high` parses to
HIGH, an unrecognized string and the absent input to UNSPECIFIED. -/
theorem C5_severity_parse_witness :
    pyUpper "high" = Severity.name .HIGH
    ∧ Severity.from_str (.str "high") = .ok .HIGH
    ∧ Severity.from_str (.str "bogus") = .ok .UNSPECIFIED
    ∧ Severity.from_str .none = .ok .UNSPECIFIED :=
  ⟨by decide, (C5_severity_parse "high" .HIGH).1 (by decide),
    (C5_severity_parse "bogus" .UNSPECIFIED).2.1
      (by intro m' ; cases m' <;> decide),
    (C5_severity_parse "x" .LOW).2.2.1⟩

/-- **C10**: a dict argument to `Severity.from_str` is first replaced
by its `"value"` entry, so parsing a dict agrees with parsing that
entry's string; a dict without a `"value"` key raises `KeyError`. -/
theorem C10_from_str_dict_unwrap (d d2 : List (String × Option String)) (s : String)
    (h1 : d.lookup "value" = some (some s)) (h2 : s ≠ "")
    (h3 : d2.lookup "value" = none) :
    Severity.from_str (.dict d) = Severity.from_str (.str s)
    ∧ Severity.from_str (.dict d2) = .error "KeyError" := by
  constructor
  · simp only [Severity.from_str, h1]
  · simp only [Severity.from_str, h3]

/-- Witness for C10 at concrete dicts with and without a `"value"`
key. -/
theorem C10_from_str_dict_unwrap_witness :
    ([("value", some "high")] : List (String × Option String)).lookup "value" =
        some (some "high")
    ∧ Severity.from_str (.dict [("value", some "high")]) =
        Severity.from_str (.str "high")
    ∧ Severity.from_str (.dict [("other", some "x")]) = .error "KeyError" := by
  have h := C10_from_str_dict_unwrap [("value", some "high")] [("other", some "x")]
    "high" (by decide) (by decide) (by decide)
  exact ⟨by decide, h.1, h.2⟩

/-- **C9**: every `PackageIssue` — built through the constructor or
through `from_dict` — carries `None` in both location fields, because
each is produced by `VulnerabilityLocation.from_dict(location, None)`
whose falsy-location check short-circuits to `None`. -/
theorem C9_package_issue_locations_always_none (affected fixed : Option String)
    (package_issue : List (String × Option String)) :
    PackageIssue.init affected fixed = .ok ⟨none, none⟩
    ∧ PackageIssue.from_dict package_issue = .ok ⟨none, none⟩ :=
  ⟨rfl, rfl⟩

/-- Counterexample to **C8** as stated: with a present location and an
absent URI, `VulnerabilityLocation.from_dict` raises a `TypeError`
(`re.match(None)`) instead of yielding no value. -/
theorem C8_absent_uri_raises :
    VulnerabilityLocation.from_dict none (some "1.2.3") = .error "TypeError" := rfl

/-- **C8** (amended): an absent or empty location input yields `None`
rather than an error whatever the URI; with a present location, a URI
string that does not match the CPE grammar yields `None`; but an
absent URI together with a present location raises `TypeError`. -/
theorem C8_location_from_dict_behavior (u : Option String) (uri loc : String)
    (hu : cpe_match uri = none) (hloc : loc ≠ "") :
    VulnerabilityLocation.from_dict u none = .ok none
    ∧ VulnerabilityLocation.from_dict u (some "") = .ok none
    ∧ VulnerabilityLocation.from_dict (some uri) (some loc) = .ok none
    ∧ VulnerabilityLocation.from_dict none (some loc) = .error "TypeError" := by
  have ht : truthy (some loc) = true := by simp [truthy, hloc]
  refine ⟨rfl, rfl, ?_, ?_⟩
  · simp only [VulnerabilityLocation.from_dict]
    rw [if_neg (fun hn => hn ht), hu]
  · simp only [VulnerabilityLocation.from_dict]
    rw [if_neg (fun hn => hn ht)]

/-- Witness for C8 (amended) at concrete inputs. -/
theorem C8_location_from_dict_witness :
    cpe_match "not-a-cpe" = none
    ∧ VulnerabilityLocation.from_dict (some "not-a-cpe") (some "1.2.3") = .ok none
    ∧ VulnerabilityLocation.from_dict none (some "1.2.3") = .error "TypeError" := by
  have h := C8_location_from_dict_behavior none "not-a-cpe" "1.2.3" (by decide)
    (by decide)
  exact ⟨by decide, h.2.2.1, h.2.2.2⟩

/-- **C4**: when a field is absent and the CPE decomposes, the missing
package and version bounds are derived from the URI; but when the URI
does not match the CPE grammar, the constructor raises
`AttributeError` (dereferencing the absent match object) instead of
leaving the field unset as the spec requires. -/
theorem C4_detail_derivation_behavior :
    VulnerabilityDetail.init (some "cpe:2.3:a:lodash:lodash:4.17.15") none none none
        .none none none none none none =
      .ok { cpe_uri := some "cpe:2.3:a:lodash:lodash:4.17.15"
            package := some "lodash"
            min_affected_version := some "4.17.15"
            max_affected_version := some "4.17.15"
            severity := .UNSPECIFIED
            description := none
            fixed_location := none
            package_type := some "lodash"
            is_obsolete := none
            source_update_time := none }
    ∧ VulnerabilityDetail.init (some "not-a-cpe") none (some "1.0") (some "2.0")
        .none none none none none none = .error "AttributeError" :=
  ⟨rfl, rfl⟩

/-- Counterexample to **C6** as stated: the unknown supplied type
`weird` does not pass through unchanged — it is replaced by the CPE
vendor `acme`. -/
theorem C6_unknown_type_replaced :
    VulnerabilityDetail.get_type "cpe:2.3:a:acme:foo:1.0" (some "weird") = some "acme"
    ∧ KNOWN_PKG_TYPES.contains "weird" = false
    ∧ (some "acme" : Option String) ≠ some "weird" :=
  ⟨by decide, by decide, by decide⟩

/-- **C6** (amended): a supplied package_type in the known set is
kept; any other supplied value (unknown or absent) is discarded and
the type is derived from the CPE vendor — the vendor passing through
unchanged even when it is not in the known set — and a URI that does
not decompose yields `None`. -/
theorem C6_get_type_normalization (uri t : String) (package_type : Option String)
    (hknown : KNOWN_PKG_TYPES.contains t = true)
    (hunknown : (match package_type with
                 | some u => KNOWN_PKG_TYPES.contains u
                 | none => false) = false) :
    VulnerabilityDetail.get_type uri (some t) = some t
    ∧ VulnerabilityDetail.get_type uri package_type =
        (cpe_match uri).map CPEParts.vendor := by
  constructor
  · have hc : (match (some t : Option String) with
        | some u => KNOWN_PKG_TYPES.contains u
        | none => false) = true := hknown
    unfold VulnerabilityDetail.get_type
    rw [if_pos hc]
  · simp only [VulnerabilityDetail.get_type, hunknown]
    cases hc : cpe_match uri <;> simp [hc]

/-- Witness for C6 (amended): a known supplied type is kept; an
unknown one is replaced by the decomposed vendor. -/
theorem C6_get_type_normalization_witness :
    KNOWN_PKG_TYPES.contains "npm" = true
    ∧ VulnerabilityDetail.get_type "cpe:2.3:a:acme:foo:1.0" (some "npm") = some "npm"
    ∧ VulnerabilityDetail.get_type "cpe:2.3:a:acme:foo:1.0" (some "weird") =
        (cpe_match "cpe:2.3:a:acme:foo:1.0").map CPEParts.vendor := by
  have h := C6_get_type_normalization "cpe:2.3:a:acme:foo:1.0" "npm" (some "weird")
    (by decide) (by decide)
  exact ⟨by decide, h.1, h.2⟩

end VulnDB
